import Mathlib

/-!
# Verification of the landslide-susceptibility weighted-overlay pipeline

Shallow embedding of the Google Earth Engine script
`src/Landslide_susceptability/google earth engine script.js`.

Per-pixel raster values are embedded as rationals (`ℚ`): the script's
arithmetic is exact decimal arithmetic on scores and weights, and every
constant appearing in it (breakpoints, weights, class bounds) is a finite
decimal.  Earth Engine's `divide` is documented to return 0 for division
by zero, which coincides with the `ℚ` convention `x / 0 = 0`, so plain
rational division embeds `ee.Image.divide` faithfully.

The categorical land-cover band (`ESA/WorldCover/v200`, band `Map`) holds
integer class codes, embedded as `ℤ`.

Masked/nodata cells are embedded as `Option ℚ` (`none` = masked) with the
platform's documented masking rules: arithmetic on a masked operand is
masked; `unmask d` replaces masked cells by `d`; `img.where(test, v)`
replaces the value by `v` exactly where `test` is valid and nonzero, and
keeps the input value (and the input's footprint) where `test` is false
or masked.
-/

namespace LSM

/-- `img.where(test, value)` of the script, per pixel on unmasked data:
if the test holds the pixel becomes `v`, otherwise it keeps `img`. -/
def eeWhere (img : ℚ) (test : Prop) [Decidable test] (v : ℚ) : ℚ :=
  if test then v else img

/-- The five-rule `where`-chain pattern used by every reclassifier of the
script: starting from the constant image 0, sequentially overwrite with
`v1` on `x ≤ a`, `v2` on `a < x ≤ b`, `v3` on `b < x ≤ c`, `v4` on
`c < x ≤ d`, and `v5` on `d < x` (last matching rule wins). -/
def chain5 (v1 v2 v3 v4 v5 a b c d x : ℚ) : ℚ :=
  eeWhere (eeWhere (eeWhere (eeWhere (eeWhere 0
    (x ≤ a) v1)
    (a < x ∧ x ≤ b) v2)
    (b < x ∧ x ≤ c) v3)
    (c < x ∧ x ≤ d) v4)
    (d < x) v5

/-- `slopeScore` (script lines 113-119): slope in degrees to score 1..5. -/
def slopeScore (slope : ℚ) : ℚ :=
  chain5 1 2 3 4 5 5 15 25 35 slope

/-- `roughScore` (script lines 122-128): roughness (stddev m) to 1..5. -/
def roughScore (roughness : ℚ) : ℚ :=
  chain5 1 2 3 4 5 1 3 6 12 roughness

/-- `distWaterScore` (script lines 131-137): distance to water in metres
to a score, closer = higher. -/
def distWaterScore (dtWater : ℚ) : ℚ :=
  chain5 5 4 3 2 1 50 100 250 500 dtWater

/-- `distRoadScore` (script lines 139-145): same breakpoints as water. -/
def distRoadScore (dtRoad : ℚ) : ℚ :=
  chain5 5 4 3 2 1 50 100 250 500 dtRoad

/-- `lcScore` (script lines 80-91): ESA WorldCover class code to score,
by a `where`-chain of equality tests starting from the constant image 0. -/
def lcScore (worldCover : ℤ) : ℚ :=
  eeWhere (eeWhere (eeWhere (eeWhere (eeWhere (eeWhere (eeWhere (eeWhere (eeWhere (eeWhere (0 : ℚ)
    (worldCover = 10) 1)
    (worldCover = 20) 3)
    (worldCover = 30) 3)
    (worldCover = 40) 3)
    (worldCover = 50) 4)
    (worldCover = 60) 5)
    (worldCover = 70) 1)
    (worldCover = 80) 1)
    (worldCover = 90) 2)
    (worldCover = 100) 2

/-- The weight vector of the script (lines 15-21): one non-negative
weight per predictor, in the script's order. -/
structure Weights where
  slope : ℚ
  roughness : ℚ
  landcover : ℚ
  distWater : ℚ
  distRoad : ℚ

/-- The configured weights of the script (lines 15-21). -/
def weights : Weights :=
  { slope := 0.45, roughness := 0.15, landcover := 0.20,
    distWater := 0.10, distRoad := 0.10 }

/-- Sum of the five weights. -/
def sumWeights (w : Weights) : ℚ :=
  w.slope + w.roughness + w.landcover + w.distWater + w.distRoad

/-- `weighted` (script lines 153-158): the raw weighted overlay
`Σ score_i × weight_i`, in the script's term order. -/
def weighted (w : Weights) (sSlope sRough sLc sWater sRoad : ℚ) : ℚ :=
  sSlope * w.slope + sRough * w.roughness + sLc * w.landcover
    + sWater * w.distWater + sRoad * w.distRoad

/-- `maxPossible` (script line 161): `5 * Σ weight_i`. -/
def maxPossible (w : Weights) : ℚ :=
  5 * (w.slope + w.roughness + w.landcover + w.distWater + w.distRoad)

/-- `susceptibility` (script line 162): the normalised overlay
`weighted / maxPossible`. -/
def susceptibility (w : Weights) (sSlope sRough sLc sWater sRoad : ℚ) : ℚ :=
  weighted w sSlope sRough sLc sWater sRoad / maxPossible w

/-- `susClass` (script lines 165-171): five-tier classification of the
susceptibility value by the same `where`-chain pattern. -/
def susClass (s : ℚ) : ℚ :=
  chain5 1 2 3 4 5 0.2 0.4 0.6 0.8 s

/-- End-to-end per-pixel pipeline at the script's configured weights:
raw predictor values in, susceptibility out (script lines 113-162). -/
def susceptibilityAt (slope roughness : ℚ) (worldCover : ℤ)
    (dtWater dtRoad : ℚ) : ℚ :=
  susceptibility weights (slopeScore slope) (roughScore roughness)
    (lcScore worldCover) (distWaterScore dtWater) (distRoadScore dtRoad)

/-- `waterMask` (script line 97): surface-water occurrence strictly
above 10 percent counts as water-present. -/
def waterMask (occurrence : ℚ) : Bool :=
  decide (10 < occurrence)

/-- The scores a reclassifier can emit: the claim's set `{1..5}`. -/
def validScore (s : ℚ) : Prop :=
  s = 1 ∨ s = 2 ∨ s = 3 ∨ s = 4 ∨ s = 5

/-- The five conditions of a `where`-chain over breakpoints
`a < b < c < d`, as a list of booleans, in rule order. -/
def conds5 (a b c d x : ℚ) : List Bool :=
  [decide (x ≤ a), decide (a < x ∧ x ≤ b), decide (b < x ∧ x ≤ c),
   decide (c < x ∧ x ≤ d), decide (d < x)]

/-- A weight vector with a negative entry (slope weight −0.45),
used to probe the absence of configuration validation. -/
def wNeg : Weights :=
  { slope := -0.45, roughness := 0.15, landcover := 0.20,
    distWater := 0.10, distRoad := 0.10 }

/-! ## Masked (nodata) semantics

Per-pixel values with a mask are `Option ℚ` (`none` = masked).  The
operators below embed the platform's documented masking rules used by
the script: arithmetic with a masked operand is masked; comparisons of a
masked value are masked; `unmask d` fills masked cells with `d`;
`img.where(test, v)` keeps the input value (and the input's footprint)
where `test` is masked or false. -/

/-- `image.multiply(number)` under masking. -/
def optMul (a : Option ℚ) (k : ℚ) : Option ℚ :=
  a.map (fun x => x * k)

/-- `image.add(image)` under masking: masked if either side is. -/
def optAdd (a b : Option ℚ) : Option ℚ :=
  match a, b with
  | some x, some y => some (x + y)
  | _, _ => none

/-- `image.divide(number)` under masking (division by zero yields 0,
as documented for the platform's `divide`). -/
def optDiv (a : Option ℚ) (k : ℚ) : Option ℚ :=
  a.map (fun x => x / k)

/-- `image.unmask(d)` (script line 99): masked cells become `d`. -/
def unmask (d : ℚ) (a : Option ℚ) : ℚ :=
  a.getD d

/-- `image.lte(k)` under masking. -/
def optLe (a : Option ℚ) (k : ℚ) : Option Bool :=
  a.map (fun x => decide (x ≤ k))

/-- `image.gt(k)` under masking. -/
def optGt (a : Option ℚ) (k : ℚ) : Option Bool :=
  a.map (fun x => decide (k < x))

/-- `image.eq(k)` on the categorical band, under masking. -/
def optEq (a : Option ℤ) (k : ℤ) : Option Bool :=
  a.map (fun x => decide (x = k))

/-- `test1.and(test2)` under masking. -/
def optAnd (a b : Option Bool) : Option Bool :=
  match a, b with
  | some x, some y => some (x && y)
  | _, _ => none

/-- `img.where(test, v)` under masking: where `test` is valid and true
the pixel becomes `v`; where `test` is false or masked the input pixel
is kept; the output keeps the input's footprint. -/
def eeWhereM (img : Option ℚ) (test : Option Bool) (v : ℚ) : Option ℚ :=
  match img, test with
  | none, _ => none
  | some _, some true => some v
  | some x, _ => some x

/-- The five-rule `where`-chain under masking, from the unmasked
constant image 0. -/
def chain5M (v1 v2 v3 v4 v5 a b c d : ℚ) (x : Option ℚ) : Option ℚ :=
  eeWhereM (eeWhereM (eeWhereM (eeWhereM (eeWhereM (some 0)
    (optLe x a) v1)
    (optAnd (optGt x a) (optLe x b)) v2)
    (optAnd (optGt x b) (optLe x c)) v3)
    (optAnd (optGt x c) (optLe x d)) v4)
    (optGt x d) v5

/-- `slopeScore` under masking. -/
def slopeScoreM (slope : Option ℚ) : Option ℚ :=
  chain5M 1 2 3 4 5 5 15 25 35 slope

/-- `roughScore` under masking. -/
def roughScoreM (roughness : Option ℚ) : Option ℚ :=
  chain5M 1 2 3 4 5 1 3 6 12 roughness

/-- `distWaterScore` under masking. -/
def distWaterScoreM (dtw : Option ℚ) : Option ℚ :=
  chain5M 5 4 3 2 1 50 100 250 500 dtw

/-- `distRoadScore` under masking. -/
def distRoadScoreM (dtr : Option ℚ) : Option ℚ :=
  chain5M 5 4 3 2 1 50 100 250 500 dtr

/-- `lcScore` (script lines 80-91) under masking. -/
def lcScoreM (worldCover : Option ℤ) : Option ℚ :=
  eeWhereM (eeWhereM (eeWhereM (eeWhereM (eeWhereM (eeWhereM (eeWhereM (eeWhereM (eeWhereM (eeWhereM (some (0 : ℚ))
    (optEq worldCover 10) 1)
    (optEq worldCover 20) 3)
    (optEq worldCover 30) 3)
    (optEq worldCover 40) 3)
    (optEq worldCover 50) 4)
    (optEq worldCover 60) 5)
    (optEq worldCover 70) 1)
    (optEq worldCover 80) 1)
    (optEq worldCover 90) 2)
    (optEq worldCover 100) 2

/-- `waterBinary` (script line 99): the boolean water mask, unmasked to
0, as a 0/1 value. -/
def waterBinaryM (occurrence : Option ℚ) : ℚ :=
  unmask 0 (occurrence.map (fun o => if waterMask o then (1 : ℚ) else 0))

/-- `weighted` (script lines 153-158) under masking, at the configured
weights. -/
def weightedM (sSlope sRough sLc sWater sRoad : Option ℚ) : Option ℚ :=
  optAdd (optAdd (optAdd (optAdd
    (optMul sSlope weights.slope)
    (optMul sRough weights.roughness))
    (optMul sLc weights.landcover))
    (optMul sWater weights.distWater))
    (optMul sRoad weights.distRoad)

/-- `susceptibility` (script line 162) under masking: the end-to-end
pipeline from raw (possibly masked) predictor pixels. -/
def susceptibilityM (slope roughness : Option ℚ) (worldCover : Option ℤ)
    (dtw dtr : Option ℚ) : Option ℚ :=
  optDiv (weightedM (slopeScoreM slope) (roughScoreM roughness)
    (lcScoreM worldCover) (distWaterScoreM dtw) (distRoadScoreM dtr))
    (maxPossible weights)

/-! ## Proximity model

`fastDistanceTransform` is a hosted-platform primitive, not code of this
repository; it is modelled from the spec below.  A feature mask is the
list of grid cells (integer coordinates) where the feature is present. -/

/-- Squared distance between two grid cells, in cells squared. -/
def sqCellDist (p q : ℤ × ℤ) : ℤ :=
  (p.1 - q.1) ^ 2 + (p.2 - q.2) ^ 2

/-- Minimum squared cell distance from `c` to a cell of the mask
(0 for an empty mask). -/
def minSqDist (c : ℤ × ℤ) : List (ℤ × ℤ) → ℤ
  | [] => 0
  | [p] => sqCellDist c p
  | p :: q :: ps => min (sqCellDist c p) (minSqDist c (q :: ps))

/-- Modelled from the spec: the platform's `fastDistanceTransform` is
not in the source set; per the spec it yields the Euclidean distance, in
grid cells, from every cell to the nearest feature-present cell. -/
noncomputable def fastDistanceTransform (mask : List (ℤ × ℤ)) (c : ℤ × ℤ) : ℝ :=
  Real.sqrt ((minSqDist c mask : ℤ) : ℝ)

/-- `dtWater` / `dtRoad` (script lines 100 and 107): the distance
transform multiplied by the 30 m cell size. -/
noncomputable def dtWater (mask : List (ℤ × ℤ)) (c : ℤ × ℤ) : ℝ :=
  fastDistanceTransform mask c * 30

/-! ## Percentile model

The percentile reducer is a hosted-platform primitive, not code of this
repository; it is modelled from the spec as a nearest-rank percentile
over the sorted cell values. -/

/-- Insert a value into an ascending list, keeping it ascending. -/
def insertLe (x : ℚ) : List ℚ → List ℚ
  | [] => [x]
  | y :: ys => if x ≤ y then x :: y :: ys else y :: insertLe x ys

/-- Insertion sort, ascending. -/
def sortAsc : List ℚ → List ℚ
  | [] => []
  | x :: xs => insertLe x (sortAsc xs)

/-- Modelled from the spec: the platform's percentile reducer is not in
the source set; modelled as the nearest-rank percentile of the sorted
values (0 on an empty list). -/
def percentile (p : ℚ) (l : List ℚ) : ℚ :=
  let s := sortAsc l
  s.getD (min (p * s.length / 100).floor.toNat (s.length - 1)) 0

/-- The percentile ranks requested by the script (line 182). -/
def percentileRanks : List ℚ := [10, 25, 50, 75, 90]

/-- `stats` (script lines 181-186): the reported percentile values of
the susceptibility raster, one per requested rank. -/
def stats (values : List ℚ) : List ℚ :=
  percentileRanks.map (fun p => percentile p values)

end LSM

namespace LSM

/-! ## Helper lemmas about the `where`-chain pattern -/

lemma validScore_bounds {s : ℚ} (h : validScore s) : 1 ≤ s ∧ s ≤ 5 := by
  rcases h with h | h | h | h | h <;> subst h <;> norm_num

lemma chain5_eq1 {v1 v2 v3 v4 v5 a b c d x : ℚ} (h : x ≤ a)
    (hab : a < b) (hbc : b < c) (hcd : c < d) :
    chain5 v1 v2 v3 v4 v5 a b c d x = v1 := by
  simp only [chain5, eeWhere]
  rw [if_neg (by intro h5; linarith), if_neg (by rintro ⟨h4, -⟩; linarith),
    if_neg (by rintro ⟨h3, -⟩; linarith), if_neg (by rintro ⟨h2, -⟩; linarith),
    if_pos h]

lemma chain5_eq2 {v1 v2 v3 v4 v5 a b c d x : ℚ} (h1 : a < x) (h2 : x ≤ b)
    (hbc : b < c) (hcd : c < d) :
    chain5 v1 v2 v3 v4 v5 a b c d x = v2 := by
  simp only [chain5, eeWhere]
  rw [if_neg (by intro h5; linarith), if_neg (by rintro ⟨h4, -⟩; linarith),
    if_neg (by rintro ⟨h3, -⟩; linarith), if_pos ⟨h1, h2⟩]

lemma chain5_eq3 {v1 v2 v3 v4 v5 a b c d x : ℚ} (h1 : b < x) (h2 : x ≤ c)
    (hcd : c < d) :
    chain5 v1 v2 v3 v4 v5 a b c d x = v3 := by
  simp only [chain5, eeWhere]
  rw [if_neg (by intro h5; linarith), if_neg (by rintro ⟨h4, -⟩; linarith),
    if_pos ⟨h1, h2⟩]

lemma chain5_eq4 {v1 v2 v3 v4 v5 a b c d x : ℚ} (h1 : c < x) (h2 : x ≤ d) :
    chain5 v1 v2 v3 v4 v5 a b c d x = v4 := by
  simp only [chain5, eeWhere]
  rw [if_neg (by intro h5; linarith), if_pos ⟨h1, h2⟩]

lemma chain5_eq5 {v1 v2 v3 v4 v5 a b c d x : ℚ} (h : d < x) :
    chain5 v1 v2 v3 v4 v5 a b c d x = v5 := by
  simp only [chain5, eeWhere]
  rw [if_pos h]

lemma chain5_mem {v1 v2 v3 v4 v5 a b c d x : ℚ}
    (hab : a < b) (hbc : b < c) (hcd : c < d) :
    chain5 v1 v2 v3 v4 v5 a b c d x ∈ ([v1, v2, v3, v4, v5] : List ℚ) := by
  rcases le_or_lt x a with h | h
  · rw [chain5_eq1 h hab hbc hcd]; simp
  rcases le_or_lt x b with h2 | h2
  · rw [chain5_eq2 h h2 hbc hcd]; simp
  rcases le_or_lt x c with h3 | h3
  · rw [chain5_eq3 h2 h3 hcd]; simp
  rcases le_or_lt x d with h4 | h4
  · rw [chain5_eq4 h3 h4]; simp
  · rw [chain5_eq5 h4]; simp

lemma conds5_count {a b c d : ℚ} (x : ℚ)
    (hab : a < b) (hbc : b < c) (hcd : c < d) :
    (conds5 a b c d x).count true = 1 := by
  rcases le_or_lt x a with h | h
  · have e : conds5 a b c d x = [true, false, false, false, false] := by
      simp only [conds5]
      rw [decide_eq_true h, decide_eq_false (by rintro ⟨h1, -⟩; linarith),
        decide_eq_false (by rintro ⟨h1, -⟩; linarith),
        decide_eq_false (by rintro ⟨h1, -⟩; linarith),
        decide_eq_false (by intro h1; linarith)]
    rw [e]; rfl
  rcases le_or_lt x b with h2 | h2
  · have e : conds5 a b c d x = [false, true, false, false, false] := by
      simp only [conds5]
      rw [decide_eq_false (by intro h1; linarith), decide_eq_true ⟨h, h2⟩,
        decide_eq_false (by rintro ⟨h1, -⟩; linarith),
        decide_eq_false (by rintro ⟨h1, -⟩; linarith),
        decide_eq_false (by intro h1; linarith)]
    rw [e]; rfl
  rcases le_or_lt x c with h3 | h3
  · have e : conds5 a b c d x = [false, false, true, false, false] := by
      simp only [conds5]
      rw [decide_eq_false (by intro h1; linarith),
        decide_eq_false (by rintro ⟨-, h1⟩; linarith), decide_eq_true ⟨h2, h3⟩,
        decide_eq_false (by rintro ⟨h1, -⟩; linarith),
        decide_eq_false (by intro h1; linarith)]
    rw [e]; rfl
  rcases le_or_lt x d with h4 | h4
  · have e : conds5 a b c d x = [false, false, false, true, false] := by
      simp only [conds5]
      rw [decide_eq_false (by intro h1; linarith),
        decide_eq_false (by rintro ⟨-, h1⟩; linarith),
        decide_eq_false (by rintro ⟨-, h1⟩; linarith), decide_eq_true ⟨h3, h4⟩,
        decide_eq_false (by intro h1; linarith)]
    rw [e]; rfl
  · have e : conds5 a b c d x = [false, false, false, false, true] := by
      simp only [conds5]
      rw [decide_eq_false (by intro h1; linarith),
        decide_eq_false (by rintro ⟨-, h1⟩; linarith),
        decide_eq_false (by rintro ⟨-, h1⟩; linarith),
        decide_eq_false (by rintro ⟨-, h1⟩; linarith), decide_eq_true h4]
    rw [e]; rfl

/-! ## Helper lemmas about the weighted overlay -/

lemma weighted_nonneg {w : Weights} {s1 s2 s3 s4 s5 : ℚ}
    (hl1 : 0 ≤ s1) (hl2 : 0 ≤ s2) (hl3 : 0 ≤ s3) (hl4 : 0 ≤ s4) (hl5 : 0 ≤ s5)
    (hw1 : 0 ≤ w.slope) (hw2 : 0 ≤ w.roughness) (hw3 : 0 ≤ w.landcover)
    (hw4 : 0 ≤ w.distWater) (hw5 : 0 ≤ w.distRoad) :
    0 ≤ weighted w s1 s2 s3 s4 s5 := by
  have t1 : 0 ≤ s1 * w.slope := mul_nonneg hl1 hw1
  have t2 : 0 ≤ s2 * w.roughness := mul_nonneg hl2 hw2
  have t3 : 0 ≤ s3 * w.landcover := mul_nonneg hl3 hw3
  have t4 : 0 ≤ s4 * w.distWater := mul_nonneg hl4 hw4
  have t5 : 0 ≤ s5 * w.distRoad := mul_nonneg hl5 hw5
  simp only [weighted]; linarith

lemma weighted_le_maxPossible {w : Weights} {s1 s2 s3 s4 s5 : ℚ}
    (hu1 : s1 ≤ 5) (hu2 : s2 ≤ 5) (hu3 : s3 ≤ 5) (hu4 : s4 ≤ 5) (hu5 : s5 ≤ 5)
    (hw1 : 0 ≤ w.slope) (hw2 : 0 ≤ w.roughness) (hw3 : 0 ≤ w.landcover)
    (hw4 : 0 ≤ w.distWater) (hw5 : 0 ≤ w.distRoad) :
    weighted w s1 s2 s3 s4 s5 ≤ maxPossible w := by
  have t1 : s1 * w.slope ≤ 5 * w.slope := mul_le_mul_of_nonneg_right hu1 hw1
  have t2 : s2 * w.roughness ≤ 5 * w.roughness := mul_le_mul_of_nonneg_right hu2 hw2
  have t3 : s3 * w.landcover ≤ 5 * w.landcover := mul_le_mul_of_nonneg_right hu3 hw3
  have t4 : s4 * w.distWater ≤ 5 * w.distWater := mul_le_mul_of_nonneg_right hu4 hw4
  have t5 : s5 * w.distRoad ≤ 5 * w.distRoad := mul_le_mul_of_nonneg_right hu5 hw5
  simp only [weighted, maxPossible]; linarith

lemma sumWeights_le_weighted {w : Weights} {s1 s2 s3 s4 s5 : ℚ}
    (hl1 : 1 ≤ s1) (hl2 : 1 ≤ s2) (hl3 : 1 ≤ s3) (hl4 : 1 ≤ s4) (hl5 : 1 ≤ s5)
    (hw1 : 0 ≤ w.slope) (hw2 : 0 ≤ w.roughness) (hw3 : 0 ≤ w.landcover)
    (hw4 : 0 ≤ w.distWater) (hw5 : 0 ≤ w.distRoad) :
    sumWeights w ≤ weighted w s1 s2 s3 s4 s5 := by
  have t1 : w.slope ≤ s1 * w.slope := le_mul_of_one_le_left hw1 hl1
  have t2 : w.roughness ≤ s2 * w.roughness := le_mul_of_one_le_left hw2 hl2
  have t3 : w.landcover ≤ s3 * w.landcover := le_mul_of_one_le_left hw3 hl3
  have t4 : w.distWater ≤ s4 * w.distWater := le_mul_of_one_le_left hw4 hl4
  have t5 : w.distRoad ≤ s5 * w.distRoad := le_mul_of_one_le_left hw5 hl5
  simp only [weighted, sumWeights]; linarith

/-! ## Helper lemmas about the proximity model -/

lemma sqCellDist_nonneg (c p : ℤ × ℤ) : 0 ≤ sqCellDist c p := by
  have h1 : 0 ≤ (c.1 - p.1) ^ 2 := sq_nonneg _
  have h2 : 0 ≤ (c.2 - p.2) ^ 2 := sq_nonneg _
  simp only [sqCellDist]; linarith

lemma sqCellDist_self (c : ℤ × ℤ) : sqCellDist c c = 0 := by
  simp [sqCellDist]

lemma minSqDist_nonneg (c : ℤ × ℤ) : (l : List (ℤ × ℤ)) → 0 ≤ minSqDist c l
  | [] => le_refl 0
  | [p] => sqCellDist_nonneg c p
  | p :: q :: ps =>
      le_min (sqCellDist_nonneg c p) (minSqDist_nonneg c (q :: ps))

lemma minSqDist_le (c p : ℤ × ℤ) :
    (l : List (ℤ × ℤ)) → p ∈ l → minSqDist c l ≤ sqCellDist c p
  | [], h => absurd h (List.not_mem_nil p)
  | [q], h => by
      have hq : p = q := List.mem_singleton.mp h
      subst hq
      exact le_refl _
  | q :: r :: rs, h => by
      rcases List.mem_cons.mp h with hq | h2
      · subst hq
        exact min_le_left _ _
      · exact le_trans (min_le_right _ _) (minSqDist_le c p (r :: rs) h2)

lemma minSqDist_eq_zero {c : ℤ × ℤ} {l : List (ℤ × ℤ)} (h : c ∈ l) :
    minSqDist c l = 0 :=
  le_antisymm (by simpa [sqCellDist_self] using minSqDist_le c c l h)
    (minSqDist_nonneg c l)

/-! ## Helper lemmas about the percentile model -/

lemma insertLe_replicate (x : ℚ) (n : ℕ) :
    insertLe x (List.replicate n x) = List.replicate (n + 1) x := by
  cases n with
  | zero => rfl
  | succ k => simp [List.replicate_succ, insertLe]

lemma sortAsc_replicate (x : ℚ) (n : ℕ) :
    sortAsc (List.replicate n x) = List.replicate n x := by
  induction n with
  | zero => rfl
  | succ k ih =>
    rw [List.replicate_succ]
    simp only [sortAsc]
    rw [ih, insertLe_replicate, List.replicate_succ]

lemma percentile_replicate (p v : ℚ) (n : ℕ) (hn : 0 < n) :
    percentile p (List.replicate n v) = v := by
  simp only [percentile, sortAsc_replicate, List.length_replicate]
  have hidx : min (p * n / 100).floor.toNat (n - 1) < n :=
    lt_of_le_of_lt (min_le_right _ _) (Nat.sub_lt hn Nat.one_pos)
  rw [List.getD_eq_getElem (List.replicate n v) 0 (by simpa using hidx),
    List.getElem_replicate]

/-! ## Helper lemmas about the masked pipeline -/

lemma eeWhereM_some (x : ℚ) (b : Bool) (v : ℚ) :
    eeWhereM (some x) (some b) v = some (if b = true then v else x) := by
  cases b <;> rfl

lemma chain5M_some (v1 v2 v3 v4 v5 a b c d x : ℚ) :
    chain5M v1 v2 v3 v4 v5 a b c d (some x)
      = some (chain5 v1 v2 v3 v4 v5 a b c d x) := by
  simp only [chain5M, optLe, optGt, optAnd, Option.map_some']
  rw [eeWhereM_some, eeWhereM_some, eeWhereM_some, eeWhereM_some, eeWhereM_some]
  simp only [chain5, eeWhere, Bool.and_eq_true, decide_eq_true_eq]

lemma lcScoreM_none : lcScoreM none = some 0 := rfl

lemma weightedM_some (x1 x2 x3 x4 x5 : ℚ) :
    weightedM (some x1) (some x2) (some x3) (some x4) (some x5)
      = some (weighted weights x1 x2 x3 x4 x5) := rfl

lemma optDiv_some (x k : ℚ) : optDiv (some x) k = some (x / k) := rfl

/-! ## Claim theorems -/

/-- C1: for every pixel whose five ordinal scores are each in {1..5} and
every non-negative weight vector, the combiner computes
`raw = Σ score_i × weight_i` and `susceptibility = raw / (5 × Σ weights)`,
and the susceptibility lies in [0,1] (also when every weight is zero,
where the platform's division by zero yields 0). -/
theorem overlay_range_C1 (w : Weights) (s1 s2 s3 s4 s5 : ℚ)
    (h1 : validScore s1) (h2 : validScore s2) (h3 : validScore s3)
    (h4 : validScore s4) (h5 : validScore s5)
    (hw1 : 0 ≤ w.slope) (hw2 : 0 ≤ w.roughness) (hw3 : 0 ≤ w.landcover)
    (hw4 : 0 ≤ w.distWater) (hw5 : 0 ≤ w.distRoad) :
    weighted w s1 s2 s3 s4 s5
        = s1 * w.slope + s2 * w.roughness + s3 * w.landcover
          + s4 * w.distWater + s5 * w.distRoad
    ∧ susceptibility w s1 s2 s3 s4 s5
        = weighted w s1 s2 s3 s4 s5 / (5 * sumWeights w)
    ∧ 0 ≤ susceptibility w s1 s2 s3 s4 s5
    ∧ susceptibility w s1 s2 s3 s4 s5 ≤ 1 := by
  obtain ⟨hb1l, hb1u⟩ := validScore_bounds h1
  obtain ⟨hb2l, hb2u⟩ := validScore_bounds h2
  obtain ⟨hb3l, hb3u⟩ := validScore_bounds h3
  obtain ⟨hb4l, hb4u⟩ := validScore_bounds h4
  obtain ⟨hb5l, hb5u⟩ := validScore_bounds h5
  have key : 0 ≤ susceptibility w s1 s2 s3 s4 s5
      ∧ susceptibility w s1 s2 s3 s4 s5 ≤ 1 := by
    rcases eq_or_lt_of_le
      (show (0 : ℚ) ≤ sumWeights w by simp only [sumWeights]; linarith) with hz | hpos
    · have e1 : w.slope = 0 := by simp only [sumWeights] at hz; linarith
      have e2 : w.roughness = 0 := by simp only [sumWeights] at hz; linarith
      have e3 : w.landcover = 0 := by simp only [sumWeights] at hz; linarith
      have e4 : w.distWater = 0 := by simp only [sumWeights] at hz; linarith
      have e5 : w.distRoad = 0 := by simp only [sumWeights] at hz; linarith
      have esus : susceptibility w s1 s2 s3 s4 s5 = 0 := by
        simp [susceptibility, weighted, maxPossible, e1, e2, e3, e4, e5]
      rw [esus]; norm_num
    · have hmp : 0 < maxPossible w := by
        simp only [maxPossible]; simp only [sumWeights] at hpos; linarith
      have hle := weighted_le_maxPossible hb1u hb2u hb3u hb4u hb5u hw1 hw2 hw3 hw4 hw5
      have hl1 : (0 : ℚ) ≤ s1 := by linarith
      have hl2 : (0 : ℚ) ≤ s2 := by linarith
      have hl3 : (0 : ℚ) ≤ s3 := by linarith
      have hl4 : (0 : ℚ) ≤ s4 := by linarith
      have hl5 : (0 : ℚ) ≤ s5 := by linarith
      have hge := weighted_nonneg hl1 hl2 hl3 hl4 hl5 hw1 hw2 hw3 hw4 hw5
      constructor
      · exact div_nonneg hge hmp.le
      · show weighted w s1 s2 s3 s4 s5 / maxPossible w ≤ 1
        rw [div_le_one hmp]; exact hle
  exact ⟨rfl, rfl, key.1, key.2⟩

/-- C1 witness: at the all-zero weight vector and scores all 3 the
susceptibility is still inside [0,1]. -/
theorem overlay_range_C1_witness :
    validScore 3
    ∧ 0 ≤ susceptibility
        { slope := 0, roughness := 0, landcover := 0,
          distWater := 0, distRoad := 0 } 3 3 3 3 3
    ∧ susceptibility
        { slope := 0, roughness := 0, landcover := 0,
          distWater := 0, distRoad := 0 } 3 3 3 3 3 ≤ 1 := by
  have hv : validScore 3 := Or.inr (Or.inr (Or.inl rfl))
  have main := overlay_range_C1
    { slope := 0, roughness := 0, landcover := 0, distWater := 0, distRoad := 0 }
    3 3 3 3 3 hv hv hv hv hv le_rfl le_rfl le_rfl le_rfl le_rfl
  exact ⟨hv, main.2.2.1, main.2.2.2⟩

/-- C2: each sequential `where`-chain reclassifier has exactly one true
condition for every real-valued input (no gaps, no double assignment),
the emitted score is in {1..5}, and breakpoint values go to the lower,
closed side: slope 5.0 scores 1 and slope 5.0001 scores 2; the same
holds for the roughness, distance-to-water and distance-to-road chains. -/
theorem reclass_exactly_one_C2 (s r dw dr : ℚ) :
    (conds5 5 15 25 35 s).count true = 1
    ∧ (conds5 1 3 6 12 r).count true = 1
    ∧ (conds5 50 100 250 500 dw).count true = 1
    ∧ (conds5 50 100 250 500 dr).count true = 1
    ∧ slopeScore s ∈ ([1, 2, 3, 4, 5] : List ℚ)
    ∧ roughScore r ∈ ([1, 2, 3, 4, 5] : List ℚ)
    ∧ distWaterScore dw ∈ ([5, 4, 3, 2, 1] : List ℚ)
    ∧ distRoadScore dr ∈ ([5, 4, 3, 2, 1] : List ℚ)
    ∧ slopeScore 5 = 1 ∧ slopeScore 5.0001 = 2 := by
  refine ⟨conds5_count s (by norm_num) (by norm_num) (by norm_num),
    conds5_count r (by norm_num) (by norm_num) (by norm_num),
    conds5_count dw (by norm_num) (by norm_num) (by norm_num),
    conds5_count dr (by norm_num) (by norm_num) (by norm_num),
    chain5_mem (by norm_num) (by norm_num) (by norm_num),
    chain5_mem (by norm_num) (by norm_num) (by norm_num),
    chain5_mem (by norm_num) (by norm_num) (by norm_num),
    chain5_mem (by norm_num) (by norm_num) (by norm_num),
    by decide, by norm_num [slopeScore, chain5, eeWhere]⟩

/-- C3: the five-tier classification has exactly one true condition for
every susceptibility value (partition, boundary to the lower class:
0.2 gives class 1 and 0.2000001 gives class 2); with any positive-sum
weight vector, all scores 1 give susceptibility exactly 0.2 and class 1,
and all scores 5 give susceptibility exactly 1 and class 5. -/
theorem class_partition_C3 (x : ℚ) (w : Weights) (hw : 0 < sumWeights w) :
    (conds5 0.2 0.4 0.6 0.8 x).count true = 1
    ∧ susClass 0.2 = 1 ∧ susClass 0.2000001 = 2
    ∧ susceptibility w 1 1 1 1 1 = 0.2
    ∧ susClass (susceptibility w 1 1 1 1 1) = 1
    ∧ susceptibility w 5 5 5 5 5 = 1
    ∧ susClass (susceptibility w 5 5 5 5 5) = 5 := by
  have hmp : maxPossible w ≠ 0 := by
    simp only [maxPossible]
    simp only [sumWeights] at hw
    intro hc; linarith
  have h1 : susceptibility w 1 1 1 1 1 = 0.2 := by
    show weighted w 1 1 1 1 1 / maxPossible w = 0.2
    rw [div_eq_iff hmp]
    simp only [weighted, maxPossible]
    rw [show (0.2 : ℚ) = 1 / 5 by norm_num]
    ring
  have h5 : susceptibility w 5 5 5 5 5 = 1 := by
    show weighted w 5 5 5 5 5 / maxPossible w = 1
    rw [div_eq_iff hmp]
    simp only [weighted, maxPossible]
    ring
  have c1 : susClass 0.2 = 1 := by norm_num [susClass, chain5, eeWhere]
  have c2 : susClass 0.2000001 = 2 := by norm_num [susClass, chain5, eeWhere]
  have c5 : susClass 1 = 5 := by norm_num [susClass, chain5, eeWhere]
  exact ⟨conds5_count x (by norm_num) (by norm_num) (by norm_num),
    c1, c2, h1, by rw [h1]; exact c1, h5, by rw [h5]; exact c5⟩

/-- C3 witness: the configured weights have positive sum, and at them
the two boundary scenarios hold. -/
theorem class_partition_C3_witness :
    0 < sumWeights weights
    ∧ susceptibility weights 1 1 1 1 1 = 0.2
    ∧ susceptibility weights 5 5 5 5 5 = 1 := by
  have hw : 0 < sumWeights weights := by norm_num [sumWeights, weights]
  exact ⟨hw, (class_partition_C3 0 weights hw).2.2.2.1,
    (class_partition_C3 0 weights hw).2.2.2.2.2.1⟩

/-- C4: the concrete scenario: scores (2,2,3,2,4) from inputs slope 10,
roughness 2, land cover 20 (shrub), distWater 300 m, distRoad 60 m at
the configured weights give raw 2.4, maximum possible 5, susceptibility
0.48, class 3. -/
theorem scenario_C4 :
    slopeScore 10 = 2 ∧ roughScore 2 = 2 ∧ lcScore 20 = 3
    ∧ distWaterScore 300 = 2 ∧ distRoadScore 60 = 4
    ∧ weighted weights 2 2 3 2 4 = 2.4
    ∧ maxPossible weights = 5
    ∧ susceptibilityAt 10 2 20 300 60 = 0.48
    ∧ susClass (susceptibilityAt 10 2 20 300 60) = 3 := by
  norm_num [susceptibilityAt, susceptibility, weighted, maxPossible, weights,
    slopeScore, roughScore, lcScore, distWaterScore, distRoadScore, susClass,
    chain5, eeWhere]

/-- C5 (the distance transform is a hosted-platform primitive, modelled
from the spec): the proximity output is the Euclidean distance in grid
cells to the nearest feature-present cell times the 30 m cell size, is
zero wherever the feature is present, is unbounded above, and the water
mask is occurrence strictly greater than 10 percent. -/
theorem proximity_C5 (mask : List (ℤ × ℤ)) (c : ℤ × ℤ) (o : ℚ)
    (hc : c ∈ mask) :
    dtWater mask c = Real.sqrt ((minSqDist c mask : ℤ) : ℝ) * 30
    ∧ dtWater mask c = 0
    ∧ (∀ B : ℝ, ∃ m k, B < dtWater m k)
    ∧ (waterMask o = true ↔ 10 < o) := by
  refine ⟨rfl, ?_, ?_, by simp [waterMask]⟩
  · simp [dtWater, fastDistanceTransform, minSqDist_eq_zero hc]
  · intro B
    have key : ∀ n : ℕ,
        (n : ℝ) ≤ dtWater [((0 : ℤ), (0 : ℤ))] ((n : ℤ), (0 : ℤ)) := by
      intro n
      have e : dtWater [((0 : ℤ), (0 : ℤ))] ((n : ℤ), (0 : ℤ)) = (n : ℝ) * 30 := by
        have hmin : minSqDist ((n : ℤ), (0 : ℤ)) [((0 : ℤ), (0 : ℤ))]
            = (n : ℤ) ^ 2 := by
          simp [minSqDist, sqCellDist]
        simp only [dtWater, fastDistanceTransform]
        rw [hmin]
        push_cast
        rw [Real.sqrt_sq (by positivity)]
      rw [e]
      exact le_mul_of_one_le_right (by positivity) (by norm_num)
    refine ⟨[((0 : ℤ), (0 : ℤ))], (((⌈B⌉₊ + 1 : ℕ) : ℤ), (0 : ℤ)), ?_⟩
    have hB : B < ((⌈B⌉₊ + 1 : ℕ) : ℝ) := by
      push_cast
      exact lt_of_le_of_lt (Nat.le_ceil B) (by linarith)
    exact lt_of_lt_of_le hB (key (⌈B⌉₊ + 1))

/-- C5 witness: the cell (0,0) of a mask holding only (0,0) is
feature-present and its proximity output is 0. -/
theorem proximity_C5_witness :
    ((0, 0) : ℤ × ℤ) ∈ [((0, 0) : ℤ × ℤ)]
    ∧ dtWater [((0, 0) : ℤ × ℤ)] (0, 0) = 0 := by
  have hm : ((0, 0) : ℤ × ℤ) ∈ [((0, 0) : ℤ × ℤ)] := List.mem_singleton.mpr rfl
  exact ⟨hm, (proximity_C5 _ _ 11 hm).2.1⟩

/-- C6 counterexample: the land-cover input 95 (a code outside the ten
handled by the `where`-chain) keeps the initialization value 0, which is
not an integer in {1..5}. -/
theorem lc_in_range_C6_cex :
    lcScore 95 = 0 ∧ lcScore 95 ∉ ([1, 2, 3, 4, 5] : List ℚ) := by
  decide

/-- C6 amended: each of the ten handled WorldCover codes gets the
table's score, which lies in {1..5}; every other land-cover value keeps
the initialization value 0. -/
theorem lc_table_C6 :
    (lcScore 10 = 1 ∧ lcScore 20 = 3 ∧ lcScore 30 = 3 ∧ lcScore 40 = 3
      ∧ lcScore 50 = 4 ∧ lcScore 60 = 5 ∧ lcScore 70 = 1 ∧ lcScore 80 = 1
      ∧ lcScore 90 = 2 ∧ lcScore 100 = 2)
    ∧ (∀ v : ℤ, v ∈ ([10, 20, 30, 40, 50, 60, 70, 80, 90, 100] : List ℤ) →
        lcScore v ∈ ([1, 2, 3, 4, 5] : List ℚ))
    ∧ (∀ v : ℤ, v ∉ ([10, 20, 30, 40, 50, 60, 70, 80, 90, 100] : List ℤ) →
        lcScore v = 0) := by
  refine ⟨by decide, ?_, ?_⟩
  · intro v hv
    fin_cases hv <;> decide
  · intro v hv
    simp only [List.mem_cons, not_or] at hv
    obtain ⟨n1, n2, n3, n4, n5, n6, n7, n8, n9, n10, -⟩ := hv
    simp [lcScore, eeWhere, n1, n2, n3, n4, n5, n6, n7, n8, n9, n10]

/-- C6 witness: 95 is outside the handled codes and scores 0. -/
theorem lc_table_C6_witness :
    ((95 : ℤ) ∉ ([10, 20, 30, 40, 50, 60, 70, 80, 90, 100] : List ℤ))
    ∧ lcScore 95 = 0 :=
  ⟨by decide, lc_table_C6.2.2 95 (by decide)⟩

/-- C7 counterexample: a cell whose land-cover source is masked (with
the other layers valid) gets a fully computed susceptibility,
0.36 at the concrete inputs below, not a masked output. -/
theorem masked_default_C7_cex :
    susceptibilityM (some 10) (some 2) none (some 300) (some 60) = some 0.36
    ∧ susceptibilityM (some 10) (some 2) none (some 300) (some 60) ≠ none := by
  have h : susceptibilityM (some 10) (some 2) none (some 300) (some 60)
      = some 0.36 := by
    norm_num [susceptibilityM, slopeScoreM, roughScoreM, distWaterScoreM,
      distRoadScoreM, lcScoreM, chain5M, eeWhereM, optLe, optGt, optAnd, optEq,
      optMul, optAdd, optDiv, weightedM, weights, maxPossible]
  exact ⟨h, by simp [h]⟩

/-- C7 amended: masked source cells are not propagated: the water mask
is explicitly unmasked to 0, and the score chains start from the
unmasked constant image 0, so a cell masked in the land-cover source
(the other layers valid) scores 0 there and the final susceptibility is
a computed value, never nodata. -/
theorem masked_default_C7 (s r dw dr : ℚ) :
    susceptibilityM (some s) (some r) none (some dw) (some dr)
      = some (susceptibility weights (slopeScore s) (roughScore r) 0
          (distWaterScore dw) (distRoadScore dr))
    ∧ unmask 0 none = 0
    ∧ waterBinaryM none = 0 := by
  refine ⟨?_, rfl, rfl⟩
  rw [susceptibilityM, slopeScoreM, roughScoreM, distWaterScoreM,
    distRoadScoreM, lcScoreM_none, chain5M_some, chain5M_some, chain5M_some,
    chain5M_some, weightedM_some, optDiv_some]
  rfl

/-- C8 counterexample: a configuration whose slope weight is negative is
not rejected: the pipeline computes susceptibility −3.4 with it. -/
theorem no_validation_C8_cex : susceptibility wNeg 5 1 1 1 1 = -3.4 := by
  norm_num [susceptibility, weighted, maxPossible, wNeg]

/-- C8 amended: the script performs no validation of the weight vector;
a negative weight is silently used in the overlay, and the resulting
susceptibility can leave [0,1] (here it is negative). -/
theorem no_validation_C8 :
    wNeg.slope < 0 ∧ susceptibility wNeg 5 1 1 1 1 < 0 := by
  norm_num [susceptibility, weighted, maxPossible, wNeg]

/-- C9 (the percentile reducer is a hosted-platform primitive, modelled
from the spec): the reporter computes exactly the percentile ranks
{10,25,50,75,90}, and over a raster whose every unmasked cell holds the
same value v every reported percentile equals v. -/
theorem percentiles_C9 (v : ℚ) (n : ℕ) (hn : 0 < n) :
    percentileRanks = [10, 25, 50, 75, 90]
    ∧ stats (List.replicate n v) = [v, v, v, v, v] := by
  refine ⟨rfl, ?_⟩
  simp [stats, percentileRanks, percentile_replicate _ v n hn]

/-- C9 witness: a three-cell raster of constant 0.5 reports 0.5 at all
five percentile ranks. -/
theorem percentiles_C9_witness :
    0 < 3 ∧ stats (List.replicate 3 (0.5 : ℚ)) = [0.5, 0.5, 0.5, 0.5, 0.5] :=
  ⟨by norm_num, (percentiles_C9 0.5 3 (by norm_num)).2⟩

/-- C10: with scores in {1..5} and a (non-negative, per the data model)
weight vector of strictly positive sum, the susceptibility is at least
1/5 (range [0.2, 1.0]); the class chain emits a class in {1..5} for
every input, so the zero initialization value is unreachable. -/
theorem class_range_C10 (w : Weights) (s1 s2 s3 s4 s5 : ℚ)
    (h1 : validScore s1) (h2 : validScore s2) (h3 : validScore s3)
    (h4 : validScore s4) (h5 : validScore s5)
    (hw1 : 0 ≤ w.slope) (hw2 : 0 ≤ w.roughness) (hw3 : 0 ≤ w.landcover)
    (hw4 : 0 ≤ w.distWater) (hw5 : 0 ≤ w.distRoad)
    (hpos : 0 < sumWeights w) :
    1 / 5 ≤ susceptibility w s1 s2 s3 s4 s5
    ∧ susceptibility w s1 s2 s3 s4 s5 ≤ 1
    ∧ (∀ x : ℚ, susClass x ∈ ([1, 2, 3, 4, 5] : List ℚ) ∧ susClass x ≠ 0) := by
  obtain ⟨hb1l, hb1u⟩ := validScore_bounds h1
  obtain ⟨hb2l, hb2u⟩ := validScore_bounds h2
  obtain ⟨hb3l, hb3u⟩ := validScore_bounds h3
  obtain ⟨hb4l, hb4u⟩ := validScore_bounds h4
  obtain ⟨hb5l, hb5u⟩ := validScore_bounds h5
  have hmp : 0 < maxPossible w := by
    simp only [maxPossible]; simp only [sumWeights] at hpos; linarith
  have hge := sumWeights_le_weighted hb1l hb2l hb3l hb4l hb5l hw1 hw2 hw3 hw4 hw5
  refine ⟨?_, ?_, ?_⟩
  · show (1 : ℚ) / 5 ≤ weighted w s1 s2 s3 s4 s5 / maxPossible w
    rw [div_le_div_iff₀ (by norm_num) hmp]
    simp only [maxPossible]
    simp only [sumWeights] at hge
    linarith
  · show weighted w s1 s2 s3 s4 s5 / maxPossible w ≤ 1
    rw [div_le_one hmp]
    exact weighted_le_maxPossible hb1u hb2u hb3u hb4u hb5u hw1 hw2 hw3 hw4 hw5
  · intro x
    have hmem : susClass x ∈ ([1, 2, 3, 4, 5] : List ℚ) :=
      chain5_mem (by norm_num) (by norm_num) (by norm_num)
    refine ⟨hmem, ?_⟩
    simp only [List.mem_cons, List.not_mem_nil, or_false] at hmem
    rcases hmem with h | h | h | h | h <;> rw [h] <;> norm_num

/-- C10 witness: at the configured weights and scores all 1, the
susceptibility is at least 1/5 and at most 1. -/
theorem class_range_C10_witness :
    validScore 1 ∧ 0 < sumWeights weights
    ∧ 1 / 5 ≤ susceptibility weights 1 1 1 1 1
    ∧ susceptibility weights 1 1 1 1 1 ≤ 1 := by
  have hv : validScore 1 := Or.inl rfl
  have hp : 0 < sumWeights weights := by norm_num [sumWeights, weights]
  have main := class_range_C10 weights 1 1 1 1 1 hv hv hv hv hv
    (by norm_num [weights]) (by norm_num [weights]) (by norm_num [weights])
    (by norm_num [weights]) (by norm_num [weights]) hp
  exact ⟨hv, hp, main.1, main.2.1⟩

end LSM
